import Mathlib

/-!
Shallow embedding of the mr-manager inventory / point-of-sale application.

The application's state lives in three React context providers
(AuthContext, ProductsContext, SalesContext), each holding JSON-serializable
arrays that are mutated by synchronous-style update functions and rewritten
to key-value storage.  We embed those update functions as pure functions on
explicit state records:

* JavaScript numbers are modelled as rationals (ℚ);
* `Date` fields (createdAt / updatedAt / date / paymentDate) are omitted:
  no verified property mentions them;
* the nondeterministic id generation (`Date.now()` + `Math.random()`) is
  modelled by explicit id-supply arguments;
* the AsyncStorage persistence layer is a black box whose writes either
  succeed or fail; for `login` (the only operation whose result depends on
  it) the outcome is an explicit `storageOk` argument, for the other
  operations a storage failure is caught and logged inside `saveData` and
  does not change the returned state, so it is not modelled;
* `array.findIndex` followed by a copy-with-replacement at that index is
  modelled by `List.find?` together with `replaceFirst` (replace the first
  element satisfying the predicate), which act on the same element.
-/

set_option allowUnsafeReducibility true

attribute [local semireducible] Rat.add Rat.sub Rat.mul Rat.neg Rat.div

namespace MrManager

/-! ### models/User.ts -/

inductive UserRole
  | ADMIN
  | SALESMAN
deriving DecidableEq

structure UserPermissions where
  canManageProducts : Bool
  canViewReports : Bool
  canManageUsers : Bool
  canMakeSales : Bool
  canViewInventory : Bool
  canAdjustInventory : Bool
  canViewSales : Bool
deriving DecidableEq

def DEFAULT_PERMISSIONS : UserRole → UserPermissions
  | UserRole.ADMIN =>
    { canManageProducts := true, canViewReports := true, canManageUsers := true,
      canMakeSales := true, canViewInventory := true, canAdjustInventory := true,
      canViewSales := true }
  | UserRole.SALESMAN =>
    { canManageProducts := false, canViewReports := false, canManageUsers := false,
      canMakeSales := true, canViewInventory := true, canAdjustInventory := false,
      canViewSales := true }

structure User where
  id : String
  username : String
  password : String
  displayName : String
  role : UserRole
  permissions : UserPermissions
deriving DecidableEq

/-! ### models/Product.ts -/

structure Product where
  id : String
  name : String
  description : Option String := none
  sku : Option String := none
  price : ℚ
  costPrice : ℚ
  stockLevel : ℚ
  lowStockThreshold : ℚ
  reorderPoint : ℚ
  category : String
  imageUrl : Option String := none
deriving DecidableEq

inductive StockActivityType
  | ADD
  | REMOVE
  | ADJUST
deriving DecidableEq

structure StockActivity where
  id : String
  productId : String
  type : StockActivityType
  quantity : ℚ
  reason : Option String
  performedBy : String
deriving DecidableEq

/-! ### models/Sales.ts -/

inductive PaymentStatus
  | PAID
  | CREDIT
  | PARTIAL
deriving DecidableEq

/-- The `productSnapshot` stored on a SaleItem: the `Partial<Product>` that
`createSale` actually builds (id, name, sku, price). -/
structure ProductSnapshot where
  id : String
  name : String
  sku : Option String
  price : ℚ
deriving DecidableEq

structure SaleItem where
  id : String
  productId : String
  productSnapshot : ProductSnapshot
  quantity : ℚ
  pricePerUnit : ℚ
  discount : Option ℚ
  subtotal : ℚ
deriving DecidableEq

structure Customer where
  name : String
  phone : Option String := none
  email : Option String := none
deriving DecidableEq

structure Sale where
  id : String
  items : List SaleItem
  totalAmount : ℚ
  amountPaid : ℚ
  balance : ℚ
  paymentStatus : PaymentStatus
  customer : Option Customer
  notes : Option String
  soldBy : String
deriving DecidableEq

structure CreditPayment where
  id : String
  saleId : String
  amount : ℚ
  paymentMethod : String
  receivedBy : String
  notes : Option String
deriving DecidableEq

/-! ### AuthContext: demo users and login -/

def adminUser : User :=
  { id := "1", username := "admin", password := "admin123",
    displayName := "Admin User", role := UserRole.ADMIN,
    permissions := DEFAULT_PERMISSIONS UserRole.ADMIN }

def salesUser : User :=
  { id := "2", username := "sales", password := "sales123",
    displayName := "Sales Staff", role := UserRole.SALESMAN,
    permissions := DEFAULT_PERMISSIONS UserRole.SALESMAN }

def DEMO_USERS : List User := [adminUser, salesUser]

/-- `login(username, password)` from AuthContext.tsx: look the pair up in
`DEMO_USERS`; on a hit, write the user to storage and set the user state
(returning true) — if the storage write throws, return false without setting
the user; on a miss return false.  `storageOk` says whether the
`AsyncStorage.setItem` call succeeds. -/
def login (storageOk : Bool) (username password : String) (currentUser : Option User) :
    Bool × Option User :=
  match DEMO_USERS.find? (fun u => u.username == username && u.password == password) with
  | none => (false, currentUser)
  | some foundUser =>
    if storageOk then (true, some foundUser) else (false, currentUser)

/-! ### ProductsContext: state and stock operations -/

structure ProductsState where
  products : List Product
  stockActivities : List StockActivity
deriving DecidableEq

def DEMO_PRODUCTS : List Product :=
  [ { id := "1", name := "T-Shirt", description := some "Cotton t-shirt, size M",
      sku := some "TS-001", price := 1500, costPrice := 1000, stockLevel := 25,
      lowStockThreshold := 10, reorderPoint := 5, category := "Clothing" },
    { id := "2", name := "Jeans", description := some "Blue denim jeans, size 32",
      sku := some "JN-001", price := 3500, costPrice := 2200, stockLevel := 15,
      lowStockThreshold := 8, reorderPoint := 5, category := "Clothing" },
    { id := "3", name := "Sneakers", description := some "Canvas sneakers, size 42",
      sku := some "SN-001", price := 4500, costPrice := 3000, stockLevel := 8,
      lowStockThreshold := 10, reorderPoint := 5, category := "Footwear" } ]

def demoProductsState : ProductsState :=
  { products := DEMO_PRODUCTS, stockActivities := [] }

/-- Replace the first element satisfying `pred` (the element at `findIndex`). -/
def replaceFirst (pred : α → Bool) (repl : α) : List α → List α
  | [] => []
  | x :: xs => if pred x then repl :: xs else x :: replaceFirst pred repl xs

def createStockActivity (newId : String) (ty : StockActivityType) (productId : String)
    (quantity : ℚ) (userId : String) (reason : Option String) : StockActivity :=
  { id := newId, productId := productId, type := ty, quantity := quantity,
    reason := reason, performedBy := userId }

/-- `addStock` from ProductsContext.tsx: find the product (false if absent),
add `quantity` to its stockLevel, and record an ADD activity. -/
def addStock (st : ProductsState) (productId : String) (quantity : ℚ)
    (userId : String) (reason : Option String) (activityId : String) :
    Bool × ProductsState :=
  match st.products.find? (fun p => p.id == productId) with
  | none => (false, st)
  | some p =>
    let updatedProduct := { p with stockLevel := p.stockLevel + quantity }
    let updatedProducts := replaceFirst (fun q => q.id == productId) updatedProduct st.products
    let activity := createStockActivity activityId StockActivityType.ADD productId
      quantity userId reason
    (true, { products := updatedProducts,
             stockActivities := st.stockActivities ++ [activity] })

/-- `removeStock` from ProductsContext.tsx: find the product (false if absent),
refuse if `stockLevel < quantity` ("Don't allow negative stock"), otherwise
subtract `quantity` and record a REMOVE activity. -/
def removeStock (st : ProductsState) (productId : String) (quantity : ℚ)
    (userId : String) (reason : Option String) (activityId : String) :
    Bool × ProductsState :=
  match st.products.find? (fun p => p.id == productId) with
  | none => (false, st)
  | some p =>
    if p.stockLevel < quantity then (false, st)
    else
      let updatedProduct := { p with stockLevel := p.stockLevel - quantity }
      let updatedProducts := replaceFirst (fun q => q.id == productId) updatedProduct st.products
      let activity := createStockActivity activityId StockActivityType.REMOVE productId
        quantity userId reason
      (true, { products := updatedProducts,
               stockActivities := st.stockActivities ++ [activity] })

/-- `adjustStock` from ProductsContext.tsx: find the product (false if absent),
set its stockLevel to `newQuantity` (no sign check), and record an ADJUST
activity whose quantity is the absolute difference. -/
def adjustStock (st : ProductsState) (productId : String) (newQuantity : ℚ)
    (userId : String) (reason : Option String) (activityId : String) :
    Bool × ProductsState :=
  match st.products.find? (fun p => p.id == productId) with
  | none => (false, st)
  | some p =>
    let difference := newQuantity - p.stockLevel
    let updatedProduct := { p with stockLevel := newQuantity }
    let updatedProducts := replaceFirst (fun q => q.id == productId) updatedProduct st.products
    let activity := createStockActivity activityId StockActivityType.ADJUST productId
      |difference| userId reason
    (true, { products := updatedProducts,
             stockActivities := st.stockActivities ++ [activity] })

/-! ### SalesContext: state, createSale, addCreditPayment -/

structure SalesState where
  sales : List Sale
  creditPayments : List CreditPayment
deriving DecidableEq

/-- The argument type of `createSale`: `Omit<SaleItem, "id" | "subtotal">`
(the caller-supplied `productSnapshot` is overwritten by `createSale`, so it
is not modelled). -/
structure SaleItemInput where
  productId : String
  quantity : ℚ
  pricePerUnit : ℚ
  discount : Option ℚ := none
deriving DecidableEq

/-- One step of the `itemsData.map` phase of `createSale`: look the product
up (throw → `none` if absent), compute
`subtotal = quantity * pricePerUnit - (discount || 0)`, and build the
SaleItem with a fresh id and a product snapshot. -/
def mkSaleItem (products : List Product) (itemId : String) (item : SaleItemInput) :
    Option SaleItem :=
  match products.find? (fun p => p.id == item.productId) with
  | none => none
  | some product =>
    some { id := itemId, productId := item.productId,
           productSnapshot := { id := product.id, name := product.name,
                                sku := product.sku, price := product.price },
           quantity := item.quantity, pricePerUnit := item.pricePerUnit,
           discount := item.discount,
           subtotal := item.quantity * item.pricePerUnit - item.discount.getD 0 }

/-- The whole `itemsData.map` phase of `createSale`; `n` indexes the id
supply. The first missing product aborts the map (the thrown error is caught
by `createSale`). -/
def buildSaleItems (products : List Product) (itemIds : Nat → String) :
    Nat → List SaleItemInput → Option (List SaleItem)
  | _, [] => some []
  | n, item :: rest =>
    match mkSaleItem products (itemIds n) item with
    | none => none
    | some saleItem =>
      match buildSaleItems products itemIds (n + 1) rest with
      | none => none
      | some restItems => some (saleItem :: restItems)

/-- The inventory-update loop of `createSale`: call `removeStock` for each
sale item in order; the first failure aborts (the thrown error is caught by
`createSale`) with the state already produced by the earlier successes kept. -/
def removeStockLoop (soldBy saleId : String) (actIds : Nat → String) :
    ProductsState → Nat → List SaleItem → Bool × ProductsState
  | pst, _, [] => (true, pst)
  | pst, n, item :: rest =>
    let result := removeStock pst item.productId item.quantity soldBy
      (some ("Sale: " ++ saleId)) (actIds n)
    if result.1 then removeStockLoop soldBy saleId actIds result.2 (n + 1) rest
    else (false, result.2)

/-- The `newSale` record that `createSale` builds from the computed sale
items: `totalAmount` is the reduce-with-`+`-from-0 of the subtotals,
`balance = totalAmount - amountPaid`, and the payment status defaults to
PAID, overwritten when `amountPaid < totalAmount` by CREDIT (if nothing was
paid) or PARTIAL. -/
def mkSale (saleItems : List SaleItem) (amountPaid : ℚ) (soldBy : String)
    (customer : Option Customer) (notes : Option String) (saleId : String) : Sale :=
  let totalAmount := (saleItems.map (fun i => i.subtotal)).sum
  { id := saleId, items := saleItems, totalAmount := totalAmount,
    amountPaid := amountPaid, balance := totalAmount - amountPaid,
    paymentStatus :=
      if amountPaid < totalAmount then
        (if amountPaid = 0 then PaymentStatus.CREDIT else PaymentStatus.PARTIAL)
      else PaymentStatus.PAID,
    customer := customer, notes := notes, soldBy := soldBy }

/-- `createSale` from SalesContext.tsx.  Returns the created sale (or `none`
when an error was thrown and caught), the new sales state, and the new
products state.  `saleId`, `itemIds` and `actIds` supply the generated ids. -/
def createSale (pst : ProductsState) (sst : SalesState)
    (itemsData : List SaleItemInput) (amountPaid : ℚ) (soldBy : String)
    (customer : Option Customer) (notes : Option String)
    (saleId : String) (itemIds actIds : Nat → String) :
    Option Sale × SalesState × ProductsState :=
  match buildSaleItems pst.products itemIds 0 itemsData with
  | none => (none, sst, pst)
  | some saleItems =>
    let newSale := mkSale saleItems amountPaid soldBy customer notes saleId
    match removeStockLoop soldBy saleId actIds pst 0 saleItems with
    | (true, pst') =>
      (some newSale, { sst with sales := sst.sales ++ [newSale] }, pst')
    | (false, pst') => (none, sst, pst')

/-- `addCreditPayment` from SalesContext.tsx: find the sale (throw → `none`
if absent), reject `amount <= 0 || amount > sale.balance`, otherwise append a
CreditPayment and update the sale, with a 0.001 tolerance when deciding PAID. -/
def addCreditPayment (sst : SalesState) (saleId : String) (amount : ℚ)
    (receivedBy paymentMethod : String) (notes : Option String) (paymentId : String) :
    Option CreditPayment × SalesState :=
  match sst.sales.find? (fun s => s.id == saleId) with
  | none => (none, sst)
  | some sale =>
    if amount ≤ 0 ∨ sale.balance < amount then (none, sst)
    else
      let payment : CreditPayment :=
        { id := paymentId, saleId := saleId, amount := amount,
          paymentMethod := paymentMethod, receivedBy := receivedBy, notes := notes }
      let updatedSale : Sale :=
        { sale with
          amountPaid := sale.amountPaid + amount,
          balance := sale.balance - amount,
          paymentStatus :=
            if sale.balance - amount ≤ 1 / 1000 then PaymentStatus.PAID
            else PaymentStatus.PARTIAL }
      (some payment,
       { sales := replaceFirst (fun s => s.id == saleId) updatedSale sst.sales,
         creditPayments := sst.creditPayments ++ [payment] })

/-- The stockLevel of the product `findIndex`/`find` acts on (the first
product with the given id), if any. -/
def stockOf (st : ProductsState) (productId : String) : Option ℚ :=
  (st.products.find? (fun p => p.id == productId)).map (fun p => p.stockLevel)

/-- Every product in the state has nonnegative stock. -/
def nonnegStock (st : ProductsState) : Prop :=
  ∀ p ∈ st.products, 0 ≤ p.stockLevel

instance (st : ProductsState) : Decidable (nonnegStock st) := by
  unfold nonnegStock; infer_instance

/-- Every sale satisfies the balance bookkeeping equation. -/
def salesInv (sst : SalesState) : Prop :=
  ∀ s ∈ sst.sales, s.balance = s.totalAmount - s.amountPaid

instance (sst : SalesState) : Decidable (salesInv sst) := by
  unfold salesInv; infer_instance

/-- Sales states reachable from the empty initial state by any sequence of
`createSale` and `addCreditPayment` calls (with arbitrary arguments and
arbitrary products states). -/
inductive SalesReachable : SalesState → Prop
  | init : SalesReachable { sales := [], creditPayments := [] }
  | createSaleStep (pst : ProductsState) (itemsData : List SaleItemInput)
      (amountPaid : ℚ) (soldBy : String) (customer : Option Customer)
      (notes : Option String) (saleId : String) (itemIds actIds : Nat → String)
      {sst : SalesState} : SalesReachable sst →
      SalesReachable (createSale pst sst itemsData amountPaid soldBy customer
        notes saleId itemIds actIds).2.1
  | addCreditPaymentStep (saleId : String) (amount : ℚ)
      (receivedBy paymentMethod : String) (notes : Option String)
      (paymentId : String) {sst : SalesState} : SalesReachable sst →
      SalesReachable (addCreditPayment sst saleId amount receivedBy
        paymentMethod notes paymentId).2

/-- The sale record produced by `createSale` on the demo products with no
items and an amountPaid of 5: an overpaid sale whose balance is negative and
whose status is PAID. -/
def overpaidSale : Sale :=
  { id := "s1", items := [], totalAmount := 0, amountPaid := 5, balance := -5,
    paymentStatus := PaymentStatus.PAID, customer := none, notes := none,
    soldBy := "1" }

/-- The sale record produced by `createSale` on the demo products for two
units of product 1 at a manual price of 100, nothing paid. -/
def tShirtCreditSale : Sale :=
  { id := "s1",
    items := [{ id := "i", productId := "1",
                productSnapshot := { id := "1", name := "T-Shirt",
                                     sku := some "TS-001", price := 1500 },
                quantity := 2, pricePerUnit := 100, discount := none,
                subtotal := 200 }],
    totalAmount := 200, amountPaid := 0, balance := 200,
    paymentStatus := PaymentStatus.CREDIT, customer := none, notes := none,
    soldBy := "1" }

/-- An item list whose second item asks for more stock than product 2 has:
`createSale` on the demo products removes 10 units of product 1, then fails
on product 2 and aborts without restoring product 1. -/
def partialFailureItems : List SaleItemInput :=
  [{ productId := "1", quantity := 10, pricePerUnit := 1500, discount := none },
   { productId := "2", quantity := 100, pricePerUnit := 3500, discount := none }]

/-! ### Helper lemmas about `replaceFirst` and `List.find?` -/

theorem forall_mem_replaceFirst {α : Type _} {P : α → Prop} (pred : α → Bool) (r : α)
    (l : List α) (hl : ∀ x ∈ l, P x) (hr : P r) : ∀ x ∈ replaceFirst pred r l, P x := by
  induction l with
  | nil => simp [replaceFirst]
  | cons y ys ih =>
    intro x hx
    simp only [replaceFirst] at hx
    by_cases hy : pred y
    · rw [if_pos hy] at hx
      rcases List.mem_cons.mp hx with h | h
      · exact h ▸ hr
      · exact hl x (List.mem_cons_of_mem _ h)
    · rw [if_neg hy] at hx
      rcases List.mem_cons.mp hx with h | h
      · exact h ▸ hl y (List.mem_cons_self y ys)
      · exact ih (fun z hz => hl z (List.mem_cons_of_mem _ hz)) x h

theorem mem_replaceFirst {α : Type _} (pred : α → Bool) (r : α) (l : List α) :
    ∀ x ∈ replaceFirst pred r l, x ∈ l ∨ x = r := by
  induction l with
  | nil => simp [replaceFirst]
  | cons y ys ih =>
    intro x hx
    simp only [replaceFirst] at hx
    by_cases hy : pred y
    · rw [if_pos hy] at hx
      rcases List.mem_cons.mp hx with h | h
      · exact Or.inr h
      · exact Or.inl (List.mem_cons_of_mem _ h)
    · rw [if_neg hy] at hx
      rcases List.mem_cons.mp hx with h | h
      · exact Or.inl (h ▸ List.mem_cons_self y ys)
      · rcases ih x h with h' | h'
        · exact Or.inl (List.mem_cons_of_mem _ h')
        · exact Or.inr h'

theorem replaceFirst_eq_set {α : Type _} (pred : α → Bool) (r : α) (l : List α) (x : α)
    (hf : l.find? pred = some x) :
    ∃ j, ∃ hj : j < l.length, l.get ⟨j, hj⟩ = x ∧ pred x = true ∧
      replaceFirst pred r l = l.set j r := by
  induction l with
  | nil => simp [List.find?] at hf
  | cons y ys ih =>
    by_cases hy : pred y
    · rw [List.find?_cons_of_pos _ hy] at hf
      refine ⟨0, by simp, ?_, ?_, ?_⟩
      · simpa using (Option.some_inj.mp hf)
      · exact (Option.some_inj.mp hf) ▸ hy
      · simp [replaceFirst, hy]
    · rw [List.find?_cons_of_neg _ hy] at hf
      rcases ih hf with ⟨j, hj, hget, hx, hrep⟩
      exact ⟨j + 1, by simpa using hj, hget, hx, by simp [replaceFirst, hy, hrep]⟩

theorem find?_replaceFirst_self {α : Type _} (pred : α → Bool) (r : α) (l : List α) (x : α)
    (hf : l.find? pred = some x) (hr : pred r = true) :
    (replaceFirst pred r l).find? pred = some r := by
  induction l with
  | nil => simp [List.find?] at hf
  | cons y ys ih =>
    by_cases hy : pred y
    · simp [replaceFirst, hy, List.find?_cons_of_pos _ hr]
    · rw [List.find?_cons_of_neg _ hy] at hf
      simp only [replaceFirst, if_neg hy]
      rw [List.find?_cons_of_neg _ hy]
      exact ih hf

theorem find?_replaceFirst_other {α : Type _} (pred pred' : α → Bool) (r : α) (l : List α)
    (h1 : ∀ x, pred x = true → pred' x = false) (h2 : pred' r = false) :
    (replaceFirst pred r l).find? pred' = l.find? pred' := by
  induction l with
  | nil => rfl
  | cons y ys ih =>
    by_cases hy : pred y
    · simp only [replaceFirst, if_pos hy]
      rw [List.find?_cons_of_neg _ (by simp [h2]), List.find?_cons_of_neg _ (by simp [h1 y hy])]
    · simp only [replaceFirst, if_neg hy]
      by_cases hy' : pred' y
      · rw [List.find?_cons_of_pos _ hy', List.find?_cons_of_pos _ hy']
      · rw [List.find?_cons_of_neg _ hy', List.find?_cons_of_neg _ hy']
        exact ih

/-! ### Inversion lemmas for the operations -/

theorem addStock_inv (st : ProductsState) (pid : String) (q : ℚ) (uid : String)
    (r : Option String) (aid : String) :
    (st.products.find? (fun p => p.id == pid) = none ∧
      addStock st pid q uid r aid = (false, st)) ∨
    ∃ p, st.products.find? (fun p => p.id == pid) = some p ∧
      addStock st pid q uid r aid =
        (true,
         { products := replaceFirst (fun x => x.id == pid)
             { p with stockLevel := p.stockLevel + q } st.products,
           stockActivities := st.stockActivities ++
             [createStockActivity aid StockActivityType.ADD pid q uid r] }) := by
  unfold addStock
  cases h : st.products.find? (fun p => p.id == pid) with
  | none => exact Or.inl ⟨rfl, rfl⟩
  | some p => exact Or.inr ⟨p, rfl, rfl⟩

theorem removeStock_inv (st : ProductsState) (pid : String) (q : ℚ) (uid : String)
    (r : Option String) (aid : String) :
    (st.products.find? (fun p => p.id == pid) = none ∧
      removeStock st pid q uid r aid = (false, st)) ∨
    (∃ p, st.products.find? (fun p => p.id == pid) = some p ∧ p.stockLevel < q ∧
      removeStock st pid q uid r aid = (false, st)) ∨
    ∃ p, st.products.find? (fun p => p.id == pid) = some p ∧ ¬ p.stockLevel < q ∧
      removeStock st pid q uid r aid =
        (true,
         { products := replaceFirst (fun x => x.id == pid)
             { p with stockLevel := p.stockLevel - q } st.products,
           stockActivities := st.stockActivities ++
             [createStockActivity aid StockActivityType.REMOVE pid q uid r] }) := by
  unfold removeStock
  cases h : st.products.find? (fun p => p.id == pid) with
  | none => exact Or.inl ⟨rfl, rfl⟩
  | some p =>
    by_cases hq : p.stockLevel < q
    · exact Or.inr (Or.inl ⟨p, rfl, hq, by simp [hq]⟩)
    · exact Or.inr (Or.inr ⟨p, rfl, hq, by simp [hq]⟩)

theorem adjustStock_inv (st : ProductsState) (pid : String) (newQ : ℚ) (uid : String)
    (r : Option String) (aid : String) :
    (st.products.find? (fun p => p.id == pid) = none ∧
      adjustStock st pid newQ uid r aid = (false, st)) ∨
    ∃ p, st.products.find? (fun p => p.id == pid) = some p ∧
      adjustStock st pid newQ uid r aid =
        (true,
         { products := replaceFirst (fun x => x.id == pid)
             { p with stockLevel := newQ } st.products,
           stockActivities := st.stockActivities ++
             [createStockActivity aid StockActivityType.ADJUST pid
               |newQ - p.stockLevel| uid r] }) := by
  unfold adjustStock
  cases h : st.products.find? (fun p => p.id == pid) with
  | none => exact Or.inl ⟨rfl, rfl⟩
  | some p => exact Or.inr ⟨p, rfl, rfl⟩

theorem addCreditPayment_inv (sst : SalesState) (saleId : String) (amount : ℚ)
    (receivedBy paymentMethod : String) (notes : Option String) (paymentId : String) :
    (sst.sales.find? (fun s => s.id == saleId) = none ∧
      addCreditPayment sst saleId amount receivedBy paymentMethod notes paymentId =
        (none, sst)) ∨
    (∃ sale, sst.sales.find? (fun s => s.id == saleId) = some sale ∧
      (amount ≤ 0 ∨ sale.balance < amount) ∧
      addCreditPayment sst saleId amount receivedBy paymentMethod notes paymentId =
        (none, sst)) ∨
    ∃ sale, sst.sales.find? (fun s => s.id == saleId) = some sale ∧
      ¬ (amount ≤ 0 ∨ sale.balance < amount) ∧
      addCreditPayment sst saleId amount receivedBy paymentMethod notes paymentId =
        (some { id := paymentId, saleId := saleId, amount := amount,
                paymentMethod := paymentMethod, receivedBy := receivedBy, notes := notes },
         { sales := replaceFirst (fun s => s.id == saleId)
             { sale with
               amountPaid := sale.amountPaid + amount,
               balance := sale.balance - amount,
               paymentStatus :=
                 if sale.balance - amount ≤ 1 / 1000 then PaymentStatus.PAID
                 else PaymentStatus.PARTIAL } sst.sales,
           creditPayments := sst.creditPayments ++
             [{ id := paymentId, saleId := saleId, amount := amount,
                paymentMethod := paymentMethod, receivedBy := receivedBy,
                notes := notes }] }) := by
  unfold addCreditPayment
  cases h : sst.sales.find? (fun s => s.id == saleId) with
  | none => exact Or.inl ⟨rfl, rfl⟩
  | some sale =>
    by_cases hc : amount ≤ 0 ∨ sale.balance < amount
    · exact Or.inr (Or.inl ⟨sale, rfl, hc, by simp [hc]⟩)
    · exact Or.inr (Or.inr ⟨sale, rfl, hc, by simp [hc]⟩)

theorem createSale_inv (pst : ProductsState) (sst : SalesState)
    (itemsData : List SaleItemInput) (amountPaid : ℚ) (soldBy : String)
    (customer : Option Customer) (notes : Option String)
    (saleId : String) (itemIds actIds : Nat → String) :
    (buildSaleItems pst.products itemIds 0 itemsData = none ∧
      createSale pst sst itemsData amountPaid soldBy customer notes saleId itemIds actIds =
        (none, sst, pst)) ∨
    ∃ saleItems, buildSaleItems pst.products itemIds 0 itemsData = some saleItems ∧
      (((removeStockLoop soldBy saleId actIds pst 0 saleItems).1 = false ∧
        createSale pst sst itemsData amountPaid soldBy customer notes saleId itemIds actIds =
          (none, sst, (removeStockLoop soldBy saleId actIds pst 0 saleItems).2)) ∨
       ((removeStockLoop soldBy saleId actIds pst 0 saleItems).1 = true ∧
        createSale pst sst itemsData amountPaid soldBy customer notes saleId itemIds actIds =
          (some (mkSale saleItems amountPaid soldBy customer notes saleId),
           { sst with sales := sst.sales ++
               [mkSale saleItems amountPaid soldBy customer notes saleId] },
           (removeStockLoop soldBy saleId actIds pst 0 saleItems).2))) := by
  unfold createSale
  cases hb : buildSaleItems pst.products itemIds 0 itemsData with
  | none => exact Or.inl ⟨rfl, rfl⟩
  | some saleItems =>
    refine Or.inr ⟨saleItems, rfl, ?_⟩
    cases hl : removeStockLoop soldBy saleId actIds pst 0 saleItems with
    | mk ok pst' =>
      cases ok with
      | false => exact Or.inl ⟨rfl, by simp [hl]⟩
      | true => exact Or.inr ⟨rfl, by simp [hl]⟩

/-- Evaluation of the demo-user lookup `DEMO_USERS.find?` for arbitrary
credentials. -/
theorem demo_find_eval (un pw : String) :
    DEMO_USERS.find? (fun u => u.username == un && u.password == pw) =
      if un = "admin" ∧ pw = "admin123" then some adminUser
      else if un = "sales" ∧ pw = "sales123" then some salesUser
      else none := by
  by_cases h1 : un = "admin" ∧ pw = "admin123"
  · obtain ⟨hu, hp⟩ := h1
    subst hu; subst hp
    decide
  · by_cases h2 : un = "sales" ∧ pw = "sales123"
    · obtain ⟨hu, hp⟩ := h2
      subst hu; subst hp
      rw [if_neg (by simp), if_pos ⟨rfl, rfl⟩]
      decide
    · rw [if_neg h1, if_neg h2]
      rw [List.find?_eq_none]
      intro u hu
      simp only [DEMO_USERS, List.mem_cons, List.mem_singleton] at hu
      rcases hu with rfl | rfl | h
      · simp only [adminUser, Bool.and_eq_true, beq_iff_eq, not_and]
        intro ha hp
        exact h1 ⟨ha.symm, hp.symm⟩
      · simp only [salesUser, Bool.and_eq_true, beq_iff_eq, not_and]
        intro ha hp
        exact h2 ⟨ha.symm, hp.symm⟩
      · simp at h

/-- C9: login(username, password) returns true exactly when the pair matches
one of the two hardcoded demo users and the storage write succeeds; on any
other input it returns false and leaves the authenticated user unchanged (so
a null user stays null); a successful admin login authenticates the ADMIN
demo user and a successful sales login the SALESMAN demo user. -/
theorem login_correct (storageOk : Bool) (un pw : String) (cur : Option User) :
    ((login storageOk un pw cur).1 = true ↔
      (((un = "admin" ∧ pw = "admin123") ∨ (un = "sales" ∧ pw = "sales123")) ∧
        storageOk = true)) ∧
    ((login storageOk un pw cur).1 = false → (login storageOk un pw cur).2 = cur) ∧
    (un = "admin" → pw = "admin123" → storageOk = true →
      (login storageOk un pw cur).2 = some adminUser ∧ adminUser.role = UserRole.ADMIN) ∧
    (un = "sales" → pw = "sales123" → storageOk = true →
      (login storageOk un pw cur).2 = some salesUser ∧ salesUser.role = UserRole.SALESMAN) := by
  have hf := demo_find_eval un pw
  by_cases h1 : un = "admin" ∧ pw = "admin123"
  · obtain ⟨hu, hp⟩ := h1
    subst hu; subst hp
    rw [if_pos ⟨rfl, rfl⟩] at hf
    cases storageOk with
    | false =>
      refine ⟨?_, ?_, ?_, ?_⟩
      · simp [login, hf]
      · intro _; simp [login, hf]
      · intro _ _ hs; cases hs
      · intro hu; exact absurd hu (by decide)
    | true =>
      refine ⟨?_, ?_, ?_, ?_⟩
      · simp [login, hf]
      · intro hc; simp [login, hf] at hc
      · intro _ _ _; exact ⟨by simp [login, hf], rfl⟩
      · intro hu; exact absurd hu (by decide)
  · by_cases h2 : un = "sales" ∧ pw = "sales123"
    · obtain ⟨hu, hp⟩ := h2
      subst hu; subst hp
      rw [if_neg (by simp), if_pos ⟨rfl, rfl⟩] at hf
      cases storageOk with
      | false =>
        refine ⟨?_, ?_, ?_, ?_⟩
        · simp [login, hf]
        · intro _; simp [login, hf]
        · intro hu; exact absurd hu (by decide)
        · intro _ _ hs; cases hs
      | true =>
        refine ⟨?_, ?_, ?_, ?_⟩
        · simp [login, hf]
        · intro hc; simp [login, hf] at hc
        · intro hu; exact absurd hu (by decide)
        · intro _ _ _; exact ⟨by simp [login, hf], rfl⟩
    · rw [if_neg h1, if_neg h2] at hf
      refine ⟨?_, ?_, ?_, ?_⟩
      · simp [login, hf, h1, h2]
      · intro _; simp [login, hf]
      · intro hu hp _; exact absurd ⟨hu, hp⟩ h1
      · intro hu hp _; exact absurd ⟨hu, hp⟩ h2

/-- C7: addCreditPayment returns null and leaves the sales and creditPayments
lists unchanged exactly when the saleId matches no sale, or the amount is
nonpositive, or the amount exceeds the sale's current balance. -/
theorem addCreditPayment_failure_iff (sst : SalesState) (saleId : String) (amount : ℚ)
    (receivedBy paymentMethod : String) (notes : Option String) (paymentId : String) :
    ((addCreditPayment sst saleId amount receivedBy paymentMethod notes paymentId).1 = none ∧
     (addCreditPayment sst saleId amount receivedBy paymentMethod notes paymentId).2 = sst) ↔
    (sst.sales.find? (fun s => s.id == saleId) = none ∨
     ∃ sale, sst.sales.find? (fun s => s.id == saleId) = some sale ∧
       (amount ≤ 0 ∨ sale.balance < amount)) := by
  rcases addCreditPayment_inv sst saleId amount receivedBy paymentMethod notes paymentId with
    ⟨hf, he⟩ | ⟨sale, hf, hc, he⟩ | ⟨sale, hf, hc, he⟩
  · constructor
    · intro _; exact Or.inl hf
    · intro _; rw [he]; exact ⟨rfl, rfl⟩
  · constructor
    · intro _; exact Or.inr ⟨sale, hf, hc⟩
    · intro _; rw [he]; exact ⟨rfl, rfl⟩
  · constructor
    · intro ⟨hnone, _⟩
      rw [he] at hnone
      cases hnone
    · intro h
      rcases h with hnone | ⟨sale', hf', hc'⟩
      · rw [hf] at hnone; cases hnone
      · rw [hf] at hf'
        cases Option.some_inj.mp hf'
        exact absurd hc' hc

/-- C5: a successful addCreditPayment appends exactly the returned payment
record (carrying the given saleId and amount) to the creditPayments list and
rewrites the sales list at exactly the position of the first sale with that
id, increasing its amountPaid by the amount and decreasing its balance by the
amount; every other position is untouched. -/
theorem addCreditPayment_success_effects (sst : SalesState) (saleId : String) (amount : ℚ)
    (receivedBy paymentMethod : String) (notes : Option String) (paymentId : String)
    (pay : CreditPayment)
    (h : (addCreditPayment sst saleId amount receivedBy paymentMethod notes paymentId).1 =
      some pay) :
    pay.saleId = saleId ∧ pay.amount = amount ∧
    (addCreditPayment sst saleId amount receivedBy paymentMethod notes paymentId).2.creditPayments =
      sst.creditPayments ++ [pay] ∧
    ∃ j, ∃ hj : j < sst.sales.length,
      (sst.sales.get ⟨j, hj⟩).id = saleId ∧
      (addCreditPayment sst saleId amount receivedBy paymentMethod notes paymentId).2.sales =
        sst.sales.set j
          { sst.sales.get ⟨j, hj⟩ with
            amountPaid := (sst.sales.get ⟨j, hj⟩).amountPaid + amount,
            balance := (sst.sales.get ⟨j, hj⟩).balance - amount,
            paymentStatus :=
              if (sst.sales.get ⟨j, hj⟩).balance - amount ≤ 1 / 1000 then PaymentStatus.PAID
              else PaymentStatus.PARTIAL } := by
  rcases addCreditPayment_inv sst saleId amount receivedBy paymentMethod notes paymentId with
    ⟨hf, he⟩ | ⟨sale, hf, hc, he⟩ | ⟨sale, hf, hc, he⟩
  · rw [he] at h; cases h
  · rw [he] at h; cases h
  · rw [he] at h
    cases Option.some_inj.mp h
    refine ⟨rfl, rfl, by rw [he], ?_⟩
    rcases replaceFirst_eq_set (fun s => s.id == saleId)
        { sale with
          amountPaid := sale.amountPaid + amount,
          balance := sale.balance - amount,
          paymentStatus :=
            if sale.balance - amount ≤ 1 / 1000 then PaymentStatus.PAID
            else PaymentStatus.PARTIAL } sst.sales sale hf with ⟨j, hj, hget, hpred, hrep⟩
    refine ⟨j, hj, ?_, ?_⟩
    · rw [hget]; exact beq_iff_eq.mp hpred
    · rw [he]
      simp only []
      rw [hrep, hget]

/-- Sales in the state after a successful createSale are either old sales or
the new sale. -/
theorem createSale_mem (pst : ProductsState) (sst : SalesState)
    (itemsData : List SaleItemInput) (amountPaid : ℚ) (soldBy : String)
    (customer : Option Customer) (notes : Option String)
    (saleId : String) (itemIds actIds : Nat → String) :
    ∀ s ∈ (createSale pst sst itemsData amountPaid soldBy customer notes saleId
        itemIds actIds).2.1.sales,
      s ∈ sst.sales ∨ s.balance = s.totalAmount - s.amountPaid := by
  rcases createSale_inv pst sst itemsData amountPaid soldBy customer notes saleId itemIds actIds
    with ⟨_, he⟩ | ⟨saleItems, hb, ⟨_, he⟩ | ⟨_, he⟩⟩
  · rw [he]; exact fun s hs => Or.inl hs
  · rw [he]; exact fun s hs => Or.inl hs
  · rw [he]
    intro s hs
    simp only [List.mem_append, List.mem_singleton] at hs
    rcases hs with h' | h'
    · exact Or.inl h'
    · subst h'
      exact Or.inr rfl

/-- C2: every sale in a sales state reachable by any sequence of createSale
and addCreditPayment operations satisfies balance = totalAmount − amountPaid:
createSale establishes the equation for the new sale and addCreditPayment
preserves it for the updated sale. -/
theorem balance_invariant_reachable {sst : SalesState} (h : SalesReachable sst) :
    salesInv sst := by
  induction h with
  | init => intro s hs; simp at hs
  | createSaleStep pst itemsData amountPaid soldBy customer notes saleId itemIds actIds hr ih =>
    intro s hs
    rcases createSale_mem pst _ itemsData amountPaid soldBy customer notes saleId itemIds actIds
      s hs with h' | h'
    · exact ih s h'
    · exact h'
  | addCreditPaymentStep saleId amount receivedBy paymentMethod notes paymentId hr ih =>
    rcases addCreditPayment_inv _ saleId amount receivedBy paymentMethod notes paymentId with
      ⟨_, he⟩ | ⟨sale, hf, _, he⟩ | ⟨sale, hf, hc, he⟩
    · rw [he]; exact ih
    · rw [he]; exact ih
    · rw [he]
      intro s hs
      simp only [] at hs
      rcases mem_replaceFirst _ _ _ s hs with h' | h'
      · exact ih s h'
      · subst h'
        have hsale := ih sale (List.mem_of_find?_eq_some hf)
        simp only []
        rw [hsale]
        ring

/-! ### Nonnegative stock -/

theorem removeStock_nonneg (st : ProductsState) (pid : String) (q : ℚ) (uid : String)
    (r : Option String) (aid : String) (h : nonnegStock st) :
    nonnegStock (removeStock st pid q uid r aid).2 := by
  rcases removeStock_inv st pid q uid r aid with ⟨_, he⟩ | ⟨p, hf, _, he⟩ | ⟨p, hf, hq, he⟩
  · rw [he]; exact h
  · rw [he]; exact h
  · rw [he]
    intro x hx
    refine forall_mem_replaceFirst _ _ _ h ?_ x hx
    exact sub_nonneg.mpr (not_lt.mp hq)

theorem addStock_nonneg (st : ProductsState) (pid : String) (q : ℚ) (uid : String)
    (r : Option String) (aid : String) (h : nonnegStock st) (hq : 0 ≤ q) :
    nonnegStock (addStock st pid q uid r aid).2 := by
  rcases addStock_inv st pid q uid r aid with ⟨_, he⟩ | ⟨p, hf, he⟩
  · rw [he]; exact h
  · rw [he]
    intro x hx
    refine forall_mem_replaceFirst _ _ _ h ?_ x hx
    exact add_nonneg (h p (List.mem_of_find?_eq_some hf)) hq

theorem adjustStock_nonneg (st : ProductsState) (pid : String) (newQ : ℚ) (uid : String)
    (r : Option String) (aid : String) (h : nonnegStock st) (hq : 0 ≤ newQ) :
    nonnegStock (adjustStock st pid newQ uid r aid).2 := by
  rcases adjustStock_inv st pid newQ uid r aid with ⟨_, he⟩ | ⟨p, hf, he⟩
  · rw [he]; exact h
  · rw [he]
    intro x hx
    exact forall_mem_replaceFirst _ _ _ h hq x hx

theorem removeStockLoop_nonneg (soldBy saleId : String) (actIds : Nat → String)
    (items : List SaleItem) (pst : ProductsState) (n : Nat) (h : nonnegStock pst) :
    nonnegStock (removeStockLoop soldBy saleId actIds pst n items).2 := by
  induction items generalizing pst n with
  | nil => exact h
  | cons it rest ih =>
    simp only [removeStockLoop]
    by_cases hr : (removeStock pst it.productId it.quantity soldBy
        (some ("Sale: " ++ saleId)) (actIds n)).1 = true
    · rw [if_pos hr]
      exact ih _ _ (removeStock_nonneg _ _ _ _ _ _ h)
    · rw [if_neg hr]
      exact removeStock_nonneg _ _ _ _ _ _ h

theorem createSale_products_nonneg (pst : ProductsState) (sst : SalesState)
    (itemsData : List SaleItemInput) (amountPaid : ℚ) (soldBy : String)
    (customer : Option Customer) (notes : Option String)
    (saleId : String) (itemIds actIds : Nat → String) (h : nonnegStock pst) :
    nonnegStock (createSale pst sst itemsData amountPaid soldBy customer notes saleId
      itemIds actIds).2.2 := by
  rcases createSale_inv pst sst itemsData amountPaid soldBy customer notes saleId itemIds actIds
    with ⟨_, he⟩ | ⟨saleItems, hb, ⟨_, he⟩ | ⟨_, he⟩⟩ <;> rw [he]
  · exact h
  · exact removeStockLoop_nonneg _ _ _ _ _ _ h
  · exact removeStockLoop_nonneg _ _ _ _ _ _ h

/-- C1 (counterexample): from the demo products state — a reachable state in
which every stockLevel is nonnegative — one adjustStock call with a negative
target succeeds and leaves a product with negative stockLevel, so the claim
that every operation with arbitrary arguments keeps all stock levels
nonnegative is false. -/
theorem stock_nonneg_counterexample :
    nonnegStock demoProductsState ∧
    (adjustStock demoProductsState "1" (-5) "1" none "a1").1 = true ∧
    ∃ p ∈ (adjustStock demoProductsState "1" (-5) "1" none "a1").2.products,
      p.stockLevel < 0 := by
  decide

/-- C1 (amended): starting from any products state with all stock levels
nonnegative, removeStock with arbitrary arguments, addStock with nonnegative
quantity, adjustStock with nonnegative target, and createSale with arbitrary
arguments all keep every stockLevel nonnegative; and removeStock returns
false and changes nothing when the quantity exceeds the product's current
stockLevel.  (Unrestricted addStock with negative quantity and adjustStock
with negative target can make stock negative, as the counterexample shows.) -/
theorem stock_nonneg_amended (st : ProductsState) (h : nonnegStock st) :
    (∀ pid q uid r aid, nonnegStock (removeStock st pid q uid r aid).2) ∧
    (∀ pid q uid r aid, 0 ≤ q → nonnegStock (addStock st pid q uid r aid).2) ∧
    (∀ pid newQ uid r aid, 0 ≤ newQ → nonnegStock (adjustStock st pid newQ uid r aid).2) ∧
    (∀ sst itemsData amountPaid soldBy customer notes saleId itemIds actIds,
      nonnegStock (createSale st sst itemsData amountPaid soldBy customer notes saleId
        itemIds actIds).2.2) ∧
    (∀ pid q uid r aid p, st.products.find? (fun x => x.id == pid) = some p →
      p.stockLevel < q → removeStock st pid q uid r aid = (false, st)) := by
  refine ⟨?_, ?_, ?_, ?_, ?_⟩
  · intro pid q uid r aid
    exact removeStock_nonneg st pid q uid r aid h
  · intro pid q uid r aid hq
    exact addStock_nonneg st pid q uid r aid h hq
  · intro pid newQ uid r aid hq
    exact adjustStock_nonneg st pid newQ uid r aid h hq
  · intro sst itemsData amountPaid soldBy customer notes saleId itemIds actIds
    exact createSale_products_nonneg st sst itemsData amountPaid soldBy customer notes saleId
      itemIds actIds h
  · intro pid q uid r aid p hf hlt
    rcases removeStock_inv st pid q uid r aid with ⟨hf', he⟩ | ⟨p', hf', _, he⟩ | ⟨p', hf', hq, he⟩
    · rw [hf] at hf'; cases hf'
    · exact he
    · rw [hf] at hf'
      cases Option.some_inj.mp hf'
      exact absurd hlt hq

/-- C1 witness: on the demo state (all stock nonnegative), a removeStock of
30 units of product 1 (which has 25) leaves every stockLevel nonnegative. -/
theorem stock_nonneg_amended_witness :
    nonnegStock (removeStock demoProductsState "1" 30 "1" none "a1").2 :=
  (stock_nonneg_amended demoProductsState (by decide)).1 "1" 30 "1" none "a1"

/-- C10: every successful addStock, removeStock and adjustStock appends
exactly one StockActivity entry with the matching type (ADD, REMOVE, ADJUST),
the affected productId, the acting user as performedBy, and the quantity of
the change (for adjustStock the absolute difference between the new and the
previous stockLevel); a failed call leaves the state — in particular the log
— unchanged, so the log is append-only. -/
theorem stock_activity_log (st : ProductsState) (pid : String) (q newQ : ℚ)
    (uid : String) (r : Option String) (aid : String) :
    ((addStock st pid q uid r aid).1 = true →
      ∃ a, (addStock st pid q uid r aid).2.stockActivities = st.stockActivities ++ [a] ∧
        a.type = StockActivityType.ADD ∧ a.productId = pid ∧ a.performedBy = uid ∧
        a.quantity = q) ∧
    ((addStock st pid q uid r aid).1 = false → (addStock st pid q uid r aid).2 = st) ∧
    ((removeStock st pid q uid r aid).1 = true →
      ∃ a, (removeStock st pid q uid r aid).2.stockActivities = st.stockActivities ++ [a] ∧
        a.type = StockActivityType.REMOVE ∧ a.productId = pid ∧ a.performedBy = uid ∧
        a.quantity = q) ∧
    ((removeStock st pid q uid r aid).1 = false → (removeStock st pid q uid r aid).2 = st) ∧
    ((adjustStock st pid newQ uid r aid).1 = true →
      ∃ p a, st.products.find? (fun x => x.id == pid) = some p ∧
        (adjustStock st pid newQ uid r aid).2.stockActivities = st.stockActivities ++ [a] ∧
        a.type = StockActivityType.ADJUST ∧ a.productId = pid ∧ a.performedBy = uid ∧
        a.quantity = |newQ - p.stockLevel|) ∧
    ((adjustStock st pid newQ uid r aid).1 = false → (adjustStock st pid newQ uid r aid).2 = st) := by
  refine ⟨?_, ?_, ?_, ?_, ?_, ?_⟩
  · intro hs
    rcases addStock_inv st pid q uid r aid with ⟨_, he⟩ | ⟨p, hf, he⟩
    · rw [he] at hs; cases hs
    · exact ⟨createStockActivity aid StockActivityType.ADD pid q uid r,
        by rw [he], rfl, rfl, rfl, rfl⟩
  · intro hs
    rcases addStock_inv st pid q uid r aid with ⟨_, he⟩ | ⟨p, hf, he⟩
    · rw [he]
    · rw [he] at hs; cases hs
  · intro hs
    rcases removeStock_inv st pid q uid r aid with ⟨_, he⟩ | ⟨p, hf, _, he⟩ | ⟨p, hf, hq, he⟩
    · rw [he] at hs; cases hs
    · rw [he] at hs; cases hs
    · exact ⟨createStockActivity aid StockActivityType.REMOVE pid q uid r,
        by rw [he], rfl, rfl, rfl, rfl⟩
  · intro hs
    rcases removeStock_inv st pid q uid r aid with ⟨_, he⟩ | ⟨p, hf, _, he⟩ | ⟨p, hf, hq, he⟩
    · rw [he]
    · rw [he]
    · rw [he] at hs; cases hs
  · intro hs
    rcases adjustStock_inv st pid newQ uid r aid with ⟨_, he⟩ | ⟨p, hf, he⟩
    · rw [he] at hs; cases hs
    · exact ⟨p, createStockActivity aid StockActivityType.ADJUST pid |newQ - p.stockLevel| uid r,
        hf, by rw [he], rfl, rfl, rfl, rfl⟩
  · intro hs
    rcases adjustStock_inv st pid newQ uid r aid with ⟨_, he⟩ | ⟨p, hf, he⟩
    · rw [he]
    · rw [he] at hs; cases hs

/-- C10 witness: adding 5 units of product 1 on the demo state appends one
ADD log entry with the expected fields. -/
theorem stock_activity_log_witness :
    ∃ a, (addStock demoProductsState "1" 5 "9" none "a1").2.stockActivities =
        demoProductsState.stockActivities ++ [a] ∧
      a.type = StockActivityType.ADD ∧ a.productId = "1" ∧ a.performedBy = "9" ∧
      a.quantity = 5 :=
  (stock_activity_log demoProductsState "1" 5 2 "9" none "a1").1 (by decide)

/-! ### Payment status -/

theorem paymentStatus_cases_all (s : PaymentStatus) :
    s = PaymentStatus.PAID ∨ s = PaymentStatus.PARTIAL ∨ s = PaymentStatus.CREDIT := by
  cases s
  · exact Or.inl rfl
  · exact Or.inr (Or.inr rfl)
  · exact Or.inr (Or.inl rfl)

/-- Characterisation of the status expression that `createSale` computes. -/
theorem mkStatus_iffs (a t : ℚ) :
    ((if a < t then (if a = 0 then PaymentStatus.CREDIT else PaymentStatus.PARTIAL)
        else PaymentStatus.PAID) = PaymentStatus.PAID ↔ t - a ≤ 0) ∧
    ((if a < t then (if a = 0 then PaymentStatus.CREDIT else PaymentStatus.PARTIAL)
        else PaymentStatus.PAID) = PaymentStatus.CREDIT ↔ 0 < t - a ∧ a = 0) ∧
    ((if a < t then (if a = 0 then PaymentStatus.CREDIT else PaymentStatus.PARTIAL)
        else PaymentStatus.PAID) = PaymentStatus.PARTIAL ↔ 0 < t - a ∧ a ≠ 0) := by
  by_cases hlt : a < t
  · by_cases h0 : a = 0
    · rw [if_pos hlt, if_pos h0]
      refine ⟨?_, ?_, ?_⟩
      · exact iff_of_false (by simp) (not_le.mpr (sub_pos.mpr hlt))
      · exact iff_of_true rfl ⟨sub_pos.mpr hlt, h0⟩
      · exact iff_of_false (by simp) (fun hc => hc.2 h0)
    · rw [if_pos hlt, if_neg h0]
      refine ⟨?_, ?_, ?_⟩
      · exact iff_of_false (by simp) (not_le.mpr (sub_pos.mpr hlt))
      · exact iff_of_false (by simp) (fun hc => h0 hc.2)
      · exact iff_of_true rfl ⟨sub_pos.mpr hlt, h0⟩
  · rw [if_neg hlt]
    refine ⟨?_, ?_, ?_⟩
    · exact iff_of_true rfl (sub_nonpos.mpr (not_lt.mp hlt))
    · exact iff_of_false (by simp) (fun hc => absurd (sub_pos.mp hc.1) hlt)
    · exact iff_of_false (by simp) (fun hc => absurd (sub_pos.mp hc.1) hlt)

/-- C3 (counterexample): createSale on the demo state with no items and an
amountPaid of 5 produces a sale whose paymentStatus is PAID while its balance
is −5 ≠ 0, so the claim that balance = 0 exactly when paymentStatus = PAID is
false; the same sale together with any unpaid credit sale also refutes the
claim that the status is determined solely by how the balance compares with
zero, since CREDIT and PARTIAL sales both have positive balance. -/
theorem paymentStatus_balance_counterexample :
    (createSale demoProductsState { sales := [], creditPayments := [] } [] 5 "1" none none
      "s1" (fun _ => "i") (fun _ => "a")).1 = some overpaidSale ∧
    overpaidSale.paymentStatus = PaymentStatus.PAID ∧ ¬ overpaidSale.balance = 0 := by
  decide

/-- C3 (amended): paymentStatus always lies in {PAID, PARTIAL, CREDIT}.  A
sale returned by createSale has status PAID iff its balance ≤ 0 (an overpaid
sale is PAID with negative balance), CREDIT iff its balance > 0 and nothing
was paid, and PARTIAL iff its balance > 0 and something was paid.  The sale
updated by a successful addCreditPayment has status PAID iff its new balance
is ≤ 0.001 (the float-comparison tolerance) and PARTIAL otherwise. -/
theorem paymentStatus_from_balance :
    (∀ pst sst itemsData amountPaid soldBy customer notes saleId itemIds actIds sale,
      (createSale pst sst itemsData amountPaid soldBy customer notes saleId itemIds
        actIds).1 = some sale →
      (sale.paymentStatus = PaymentStatus.PAID ∨ sale.paymentStatus = PaymentStatus.PARTIAL ∨
        sale.paymentStatus = PaymentStatus.CREDIT) ∧
      (sale.paymentStatus = PaymentStatus.PAID ↔ sale.balance ≤ 0) ∧
      (sale.paymentStatus = PaymentStatus.CREDIT ↔ 0 < sale.balance ∧ sale.amountPaid = 0) ∧
      (sale.paymentStatus = PaymentStatus.PARTIAL ↔ 0 < sale.balance ∧ sale.amountPaid ≠ 0)) ∧
    (∀ sst saleId amount receivedBy paymentMethod notes paymentId pay,
      (addCreditPayment sst saleId amount receivedBy paymentMethod notes paymentId).1 =
        some pay →
      ∃ upd, (addCreditPayment sst saleId amount receivedBy paymentMethod notes
          paymentId).2.sales.find? (fun s => s.id == saleId) = some upd ∧
        (upd.paymentStatus = PaymentStatus.PAID ∨ upd.paymentStatus = PaymentStatus.PARTIAL) ∧
        (upd.paymentStatus = PaymentStatus.PAID ↔ upd.balance ≤ 1 / 1000)) := by
  constructor
  · intro pst sst itemsData amountPaid soldBy customer notes saleId itemIds actIds sale h
    rcases createSale_inv pst sst itemsData amountPaid soldBy customer notes saleId itemIds
      actIds with ⟨_, he⟩ | ⟨saleItems, hb, ⟨_, he⟩ | ⟨_, he⟩⟩
    · rw [he] at h; cases h
    · rw [he] at h; cases h
    · rw [he] at h
      cases Option.some_inj.mp h
      have hs := mkStatus_iffs amountPaid ((saleItems.map (fun i => i.subtotal)).sum)
      exact ⟨paymentStatus_cases_all _, hs.1, hs.2.1, hs.2.2⟩
  · intro sst saleId amount receivedBy paymentMethod notes paymentId pay h
    rcases addCreditPayment_inv sst saleId amount receivedBy paymentMethod notes paymentId with
      ⟨_, he⟩ | ⟨sale, hf, _, he⟩ | ⟨sale, hf, hc, he⟩
    · rw [he] at h; cases h
    · rw [he] at h; cases h
    · rw [he]
      refine ⟨{ sale with
          amountPaid := sale.amountPaid + amount,
          balance := sale.balance - amount,
          paymentStatus :=
            if sale.balance - amount ≤ 1 / 1000 then PaymentStatus.PAID
            else PaymentStatus.PARTIAL }, ?_, ?_, ?_⟩
      · simp only []
        apply find?_replaceFirst_self (fun s => s.id == saleId) _ sst.sales sale hf
        have h1 := List.find?_some hf
        exact h1
      · by_cases hb : sale.balance - amount ≤ 1 / 1000
        · rw [if_pos hb]; exact Or.inl rfl
        · rw [if_neg hb]; exact Or.inr rfl
      · by_cases hb : sale.balance - amount ≤ 1 / 1000
        · rw [if_pos hb]; exact iff_of_true rfl hb
        · rw [if_neg hb]; exact iff_of_false (by simp) hb

/-- C3 witness: the concrete overpaid sale created on the demo state is PAID
exactly because its balance (−5) is ≤ 0. -/
theorem paymentStatus_from_balance_witness :
    overpaidSale.paymentStatus = PaymentStatus.PAID ↔ overpaidSale.balance ≤ 0 :=
  ((paymentStatus_from_balance.1 demoProductsState { sales := [], creditPayments := [] }
    [] 5 "1" none none "s1" (fun _ => "i") (fun _ => "a") overpaidSale (by decide)).2.1)

/-! ### Stock decrements performed by createSale -/

theorem removeStock_stockOf_other (st : ProductsState) (pid : String) (q : ℚ) (uid : String)
    (r : Option String) (aid : String) (pid' : String) (hne : pid' ≠ pid) :
    stockOf (removeStock st pid q uid r aid).2 pid' = stockOf st pid' := by
  rcases removeStock_inv st pid q uid r aid with ⟨_, he⟩ | ⟨p, hf, _, he⟩ | ⟨p, hf, hq, he⟩
  · rw [he]
  · rw [he]
  · rw [he]
    unfold stockOf
    simp only []
    rw [find?_replaceFirst_other]
    · intro x hx
      have hxid : x.id = pid := by
        have h1 := hx
        simp only [beq_iff_eq] at h1
        exact h1
      rw [hxid]
      exact beq_eq_false_iff_ne.mpr (Ne.symm hne)
    · have hpid : p.id = pid := by
        have h1 := List.find?_some hf
        simp only [beq_iff_eq] at h1
        exact h1
      show (p.id == pid') = false
      rw [hpid]
      exact beq_eq_false_iff_ne.mpr (Ne.symm hne)

theorem removeStock_stockOf_self (st : ProductsState) (pid : String) (q : ℚ) (uid : String)
    (r : Option String) (aid : String) (hs : (removeStock st pid q uid r aid).1 = true) :
    stockOf (removeStock st pid q uid r aid).2 pid = (stockOf st pid).map (fun x => x - q) := by
  rcases removeStock_inv st pid q uid r aid with ⟨_, he⟩ | ⟨p, hf, _, he⟩ | ⟨p, hf, hq, he⟩
  · rw [he] at hs; cases hs
  · rw [he] at hs; cases hs
  · rw [he]
    unfold stockOf
    simp only []
    rw [hf]
    have hfound := find?_replaceFirst_self (fun x => x.id == pid)
      { p with stockLevel := p.stockLevel - q } st.products p hf (by
        have h1 := List.find?_some hf
        exact h1)
    rw [hfound]
    rfl

theorem removeStockLoop_stockOf_other (soldBy saleId : String) (actIds : Nat → String)
    (items : List SaleItem) :
    ∀ (pst : ProductsState) (n : Nat) (pid : String),
      pid ∉ items.map (fun i => i.productId) →
      stockOf (removeStockLoop soldBy saleId actIds pst n items).2 pid = stockOf pst pid := by
  induction items with
  | nil => intro pst n pid _; rfl
  | cons it rest ih =>
    intro pst n pid hmem
    simp only [List.map_cons, List.mem_cons, not_or] at hmem
    obtain ⟨hne, hrest⟩ := hmem
    simp only [removeStockLoop]
    by_cases hr : (removeStock pst it.productId it.quantity soldBy
        (some ("Sale: " ++ saleId)) (actIds n)).1 = true
    · rw [if_pos hr, ih _ _ _ hrest]
      exact removeStock_stockOf_other _ _ _ _ _ _ _ hne
    · rw [if_neg hr]
      exact removeStock_stockOf_other _ _ _ _ _ _ _ hne

theorem removeStockLoop_cons_true (soldBy saleId : String) (actIds : Nat → String)
    (pst : ProductsState) (n : Nat) (it : SaleItem) (rest : List SaleItem)
    (h : (removeStockLoop soldBy saleId actIds pst n (it :: rest)).1 = true) :
    (removeStock pst it.productId it.quantity soldBy
      (some ("Sale: " ++ saleId)) (actIds n)).1 = true ∧
    removeStockLoop soldBy saleId actIds pst n (it :: rest) =
      removeStockLoop soldBy saleId actIds
        (removeStock pst it.productId it.quantity soldBy
          (some ("Sale: " ++ saleId)) (actIds n)).2 (n + 1) rest := by
  by_cases hr : (removeStock pst it.productId it.quantity soldBy
      (some ("Sale: " ++ saleId)) (actIds n)).1 = true
  · refine ⟨hr, ?_⟩
    simp only [removeStockLoop]
    rw [if_pos hr]
  · exfalso
    simp only [removeStockLoop] at h
    rw [if_neg hr] at h
    cases h

theorem removeStockLoop_decrements (soldBy saleId : String) (actIds : Nat → String)
    (items : List SaleItem) :
    ∀ (pst : ProductsState) (n : Nat),
      (items.map (fun i => i.productId)).Nodup →
      (removeStockLoop soldBy saleId actIds pst n items).1 = true →
      ∀ it ∈ items,
        stockOf (removeStockLoop soldBy saleId actIds pst n items).2 it.productId =
          (stockOf pst it.productId).map (fun x => x - it.quantity) := by
  induction items with
  | nil => intro pst n _ _ it hit; simp at hit
  | cons it0 rest ih =>
    intro pst n hnd hs it hit
    obtain ⟨hr0, heq⟩ := removeStockLoop_cons_true soldBy saleId actIds pst n it0 rest hs
    rw [heq] at hs ⊢
    simp only [List.map_cons, List.nodup_cons] at hnd
    obtain ⟨hnotin, hndrest⟩ := hnd
    rcases List.mem_cons.mp hit with rfl | hmem
    · rw [removeStockLoop_stockOf_other soldBy saleId actIds rest _ _ _ hnotin]
      exact removeStock_stockOf_self pst it.productId it.quantity soldBy _ (actIds n) hr0
    · have hne : it.productId ≠ it0.productId := by
        intro hco
        exact hnotin (hco ▸ List.mem_map.mpr ⟨it, hmem, rfl⟩)
      rw [ih _ _ hndrest hs it hmem, removeStock_stockOf_other _ _ _ _ _ _ _ hne]

theorem mkSaleItem_inv (products : List Product) (itemId : String) (item : SaleItemInput)
    (si : SaleItem) (h : mkSaleItem products itemId item = some si) :
    ∃ product, products.find? (fun p => p.id == item.productId) = some product ∧
      si = { id := itemId, productId := item.productId,
             productSnapshot := { id := product.id, name := product.name,
                                  sku := product.sku, price := product.price },
             quantity := item.quantity, pricePerUnit := item.pricePerUnit,
             discount := item.discount,
             subtotal := item.quantity * item.pricePerUnit - item.discount.getD 0 } := by
  unfold mkSaleItem at h
  cases hf : products.find? (fun p => p.id == item.productId) with
  | none => rw [hf] at h; cases h
  | some product =>
    rw [hf] at h
    exact ⟨product, rfl, (Option.some_inj.mp h).symm⟩

theorem buildSaleItems_cons_inv (products : List Product) (itemIds : Nat → String)
    (n : Nat) (d : SaleItemInput) (rest : List SaleItemInput) (saleItems : List SaleItem)
    (h : buildSaleItems products itemIds n (d :: rest) = some saleItems) :
    ∃ si restItems, mkSaleItem products (itemIds n) d = some si ∧
      buildSaleItems products itemIds (n + 1) rest = some restItems ∧
      saleItems = si :: restItems := by
  unfold buildSaleItems at h
  cases hm : mkSaleItem products (itemIds n) d with
  | none => rw [hm] at h; cases h
  | some si =>
    rw [hm] at h
    cases hb : buildSaleItems products itemIds (n + 1) rest with
    | none => rw [hb] at h; cases h
    | some restItems =>
      rw [hb] at h
      exact ⟨si, restItems, rfl, rfl, (Option.some_inj.mp h).symm⟩

theorem buildSaleItems_resolve (products : List Product) (itemIds : Nat → String)
    (itemsData : List SaleItemInput) :
    ∀ (n : Nat) (saleItems : List SaleItem),
      buildSaleItems products itemIds n itemsData = some saleItems →
      saleItems.map (fun i => i.productId) = itemsData.map (fun d => d.productId) ∧
      ∀ d ∈ itemsData, ∃ si ∈ saleItems,
        si.productId = d.productId ∧ si.quantity = d.quantity := by
  induction itemsData with
  | nil =>
    intro n saleItems h
    cases Option.some_inj.mp h.symm
    exact ⟨rfl, by intro d hd; simp at hd⟩
  | cons d rest ih =>
    intro n saleItems h
    obtain ⟨si, restItems, hm, hb, rfl⟩ := buildSaleItems_cons_inv products itemIds n d rest
      saleItems h
    obtain ⟨product, hf, rfl⟩ := mkSaleItem_inv products (itemIds n) d si hm
    obtain ⟨hmap, hall⟩ := ih (n + 1) restItems hb
    refine ⟨?_, ?_⟩
    · simp only [List.map_cons, hmap]
    · intro d' hd'
      rcases List.mem_cons.mp hd' with rfl | hmem
      · exact ⟨_, List.mem_cons_self _ _, rfl, rfl⟩
      · obtain ⟨si', hsi', hp, hq⟩ := hall d' hmem
        exact ⟨si', List.mem_cons_of_mem _ hsi', hp, hq⟩

/-- C4: when createSale succeeds on a list of items over distinct product
ids, the stock level of each item's product (as seen by the find used by
removeStock, the shared update call through which all decrements happen)
drops by exactly that item's quantity. -/
theorem createSale_decrements_stock (pst : ProductsState) (sst : SalesState)
    (itemsData : List SaleItemInput) (amountPaid : ℚ) (soldBy : String)
    (customer : Option Customer) (notes : Option String)
    (saleId : String) (itemIds actIds : Nat → String)
    (hnd : (itemsData.map (fun d => d.productId)).Nodup)
    (h : (createSale pst sst itemsData amountPaid soldBy customer notes saleId itemIds
      actIds).1.isSome = true) :
    ∀ d ∈ itemsData,
      stockOf (createSale pst sst itemsData amountPaid soldBy customer notes saleId itemIds
        actIds).2.2 d.productId =
        (stockOf pst d.productId).map (fun x => x - d.quantity) := by
  rcases createSale_inv pst sst itemsData amountPaid soldBy customer notes saleId itemIds
    actIds with ⟨_, he⟩ | ⟨saleItems, hb, ⟨_, he⟩ | ⟨hl, he⟩⟩
  · rw [he] at h; simp at h
  · rw [he] at h; simp at h
  · rw [he]
    intro d hd
    obtain ⟨hmap, hall⟩ := buildSaleItems_resolve pst.products itemIds itemsData 0 saleItems hb
    obtain ⟨si, hsi, hpid, hq⟩ := hall d hd
    have hnd' : (saleItems.map (fun i => i.productId)).Nodup := by rw [hmap]; exact hnd
    have hdec := removeStockLoop_decrements soldBy saleId actIds saleItems pst 0 hnd' hl si hsi
    rw [← hpid, ← hq]
    exact hdec

/-- C4 witness: on the demo state, after a successful sale of 10 units of
product 1 and 5 of product 2, product 1's stock stands at 25 − 10 = 15. -/
theorem createSale_decrements_stock_witness :
    stockOf (createSale demoProductsState { sales := [], creditPayments := [] }
      [{ productId := "1", quantity := 10, pricePerUnit := 1500, discount := none },
       { productId := "2", quantity := 5, pricePerUnit := 3500, discount := none }]
      0 "1" none none "s1" (fun _ => "i") (fun _ => "a")).2.2 "1" = some 15 := by
  have h := createSale_decrements_stock demoProductsState
    { sales := [], creditPayments := [] }
    [{ productId := "1", quantity := 10, pricePerUnit := 1500, discount := none },
     { productId := "2", quantity := 5, pricePerUnit := 3500, discount := none }]
    0 "1" none none "s1" (fun _ => "i") (fun _ => "a") (by decide) (by decide)
    { productId := "1", quantity := 10, pricePerUnit := 1500, discount := none }
    (by decide)
  exact h.trans (by decide)

theorem buildSaleItems_none_iff (products : List Product) (itemIds : Nat → String)
    (itemsData : List SaleItemInput) :
    ∀ n : Nat,
      buildSaleItems products itemIds n itemsData = none ↔
      ∃ d ∈ itemsData, products.find? (fun p => p.id == d.productId) = none := by
  induction itemsData with
  | nil => intro n; simp [buildSaleItems]
  | cons d rest ih =>
    intro n
    constructor
    · intro h
      unfold buildSaleItems at h
      cases hm : mkSaleItem products (itemIds n) d with
      | none =>
        unfold mkSaleItem at hm
        cases hf : products.find? (fun p => p.id == d.productId) with
        | none => exact ⟨d, List.mem_cons_self _ _, hf⟩
        | some product => rw [hf] at hm; cases hm
      | some si =>
        rw [hm] at h
        cases hb : buildSaleItems products itemIds (n + 1) rest with
        | none =>
          obtain ⟨d1, hd1, hf1⟩ := (ih (n + 1)).mp hb
          exact ⟨d1, List.mem_cons_of_mem _ hd1, hf1⟩
        | some restItems => rw [hb] at h; cases h
    · intro hex
      obtain ⟨d1, hd1, hf1⟩ := hex
      rcases List.mem_cons.mp hd1 with rfl | hmem
      · have hm : mkSaleItem products (itemIds n) d1 = none := by
          unfold mkSaleItem
          rw [hf1]
        unfold buildSaleItems
        rw [hm]
      · have hb : buildSaleItems products itemIds (n + 1) rest = none :=
          (ih (n + 1)).mpr ⟨d1, hmem, hf1⟩
        unfold buildSaleItems
        cases hm : mkSaleItem products (itemIds n) d with
        | none => rfl
        | some si => rw [hb]

/-- C6: createSale returns null exactly when some item's productId matches no
product or the removeStock loop fails on some item; whenever it returns null
the sales list is left unchanged (no sale is appended); and on the concrete
partial-failure input (10 units of product 1, then an over-demand of 100
units of product 2 on the demo state) it returns null while the products
state differs from the state before the call: the 10 units already removed
from product 1 are not restored. -/
theorem createSale_failure_no_rollback (pst : ProductsState) (sst : SalesState)
    (itemsData : List SaleItemInput) (amountPaid : ℚ) (soldBy : String)
    (customer : Option Customer) (notes : Option String)
    (saleId : String) (itemIds actIds : Nat → String) :
    ((createSale pst sst itemsData amountPaid soldBy customer notes saleId itemIds
        actIds).1 = none ↔
      ((∃ d ∈ itemsData, pst.products.find? (fun p => p.id == d.productId) = none) ∨
       ∃ saleItems, buildSaleItems pst.products itemIds 0 itemsData = some saleItems ∧
         (removeStockLoop soldBy saleId actIds pst 0 saleItems).1 = false)) ∧
    ((createSale pst sst itemsData amountPaid soldBy customer notes saleId itemIds
        actIds).1 = none →
      (createSale pst sst itemsData amountPaid soldBy customer notes saleId itemIds
        actIds).2.1 = sst) ∧
    ((createSale demoProductsState { sales := [], creditPayments := [] }
        partialFailureItems 0 "1" none none "s1" (fun _ => "i") (fun _ => "a")).1 = none ∧
     (createSale demoProductsState { sales := [], creditPayments := [] }
        partialFailureItems 0 "1" none none "s1" (fun _ => "i") (fun _ => "a")).2.2 ≠
       demoProductsState) := by
  refine ⟨?_, ?_, by decide, by decide⟩
  · rcases createSale_inv pst sst itemsData amountPaid soldBy customer notes saleId itemIds
      actIds with ⟨hb, he⟩ | ⟨saleItems, hb, ⟨hfalse, he⟩ | ⟨htrue, he⟩⟩
    · refine iff_of_true (by rw [he]) ?_
      exact Or.inl ((buildSaleItems_none_iff pst.products itemIds itemsData 0).mp hb)
    · refine iff_of_true (by rw [he]) ?_
      exact Or.inr ⟨saleItems, hb, hfalse⟩
    · refine iff_of_false (by rw [he]; simp) ?_
      intro hc
      rcases hc with hmiss | ⟨saleItems1, hb1, hfalse1⟩
      · have := (buildSaleItems_none_iff pst.products itemIds itemsData 0).mpr hmiss
        rw [hb] at this
        cases this
      · rw [hb] at hb1
        cases Option.some_inj.mp hb1
        rw [htrue] at hfalse1
        cases hfalse1
  · intro h
    rcases createSale_inv pst sst itemsData amountPaid soldBy customer notes saleId itemIds
      actIds with ⟨_, he⟩ | ⟨saleItems, hb, ⟨_, he⟩ | ⟨_, he⟩⟩
    · rw [he]
    · rw [he]
    · rw [he] at h; cases h

/-- C6 witness: the concrete partial failure leaves the (empty) sales state
unchanged while the products state has changed. -/
theorem createSale_failure_no_rollback_witness :
    (createSale demoProductsState { sales := [], creditPayments := [] }
      partialFailureItems 0 "1" none none "s1" (fun _ => "i") (fun _ => "a")).2.1 =
      { sales := [], creditPayments := [] } ∧
    ((createSale demoProductsState { sales := [], creditPayments := [] }
        partialFailureItems 0 "1" none none "s1" (fun _ => "i") (fun _ => "a")).1 = none ∧
     (createSale demoProductsState { sales := [], creditPayments := [] }
        partialFailureItems 0 "1" none none "s1" (fun _ => "i") (fun _ => "a")).2.2 ≠
       demoProductsState) :=
  ⟨(createSale_failure_no_rollback demoProductsState { sales := [], creditPayments := [] }
      partialFailureItems 0 "1" none none "s1" (fun _ => "i") (fun _ => "a")).2.1 (by decide),
   (createSale_failure_no_rollback demoProductsState { sales := [], creditPayments := [] }
      partialFailureItems 0 "1" none none "s1" (fun _ => "i") (fun _ => "a")).2.2⟩

/-! ### Subtotals and total amount -/

theorem buildSaleItems_subtotals (products : List Product) (itemIds : Nat → String)
    (itemsData : List SaleItemInput) :
    ∀ (n : Nat) (saleItems : List SaleItem),
      buildSaleItems products itemIds n itemsData = some saleItems →
      ∀ si ∈ saleItems,
        si.subtotal = si.quantity * si.pricePerUnit - si.discount.getD 0 := by
  induction itemsData with
  | nil =>
    intro n saleItems h
    cases Option.some_inj.mp h.symm
    intro si hsi
    simp at hsi
  | cons d rest ih =>
    intro n saleItems h si hsi
    obtain ⟨si0, restItems, hm, hb, rfl⟩ := buildSaleItems_cons_inv products itemIds n d rest
      saleItems h
    rcases List.mem_cons.mp hsi with rfl | hmem
    · obtain ⟨product, hf, rfl⟩ := mkSaleItem_inv products (itemIds n) d si hm
      rfl
    · exact ih (n + 1) restItems hb si hmem

/-- C8: every item of a sale returned by createSale has
subtotal = quantity × pricePerUnit − discount (0 when absent), and the sale's
totalAmount is the sum of its items' subtotals. -/
theorem createSale_subtotals_total (pst : ProductsState) (sst : SalesState)
    (itemsData : List SaleItemInput) (amountPaid : ℚ) (soldBy : String)
    (customer : Option Customer) (notes : Option String)
    (saleId : String) (itemIds actIds : Nat → String) (sale : Sale)
    (h : (createSale pst sst itemsData amountPaid soldBy customer notes saleId itemIds
      actIds).1 = some sale) :
    (∀ si ∈ sale.items, si.subtotal = si.quantity * si.pricePerUnit - si.discount.getD 0) ∧
    sale.totalAmount = (sale.items.map (fun i => i.subtotal)).sum := by
  rcases createSale_inv pst sst itemsData amountPaid soldBy customer notes saleId itemIds
    actIds with ⟨_, he⟩ | ⟨saleItems, hb, ⟨_, he⟩ | ⟨_, he⟩⟩
  · rw [he] at h; cases h
  · rw [he] at h; cases h
  · rw [he] at h
    cases Option.some_inj.mp h
    exact ⟨buildSaleItems_subtotals pst.products itemIds itemsData 0 saleItems hb, rfl⟩

/-- C8 witness: the concrete credit sale of two units of product 1 at a
manual price of 100 has item subtotal 2 × 100 − 0 and totalAmount 200. -/
theorem createSale_subtotals_total_witness :
    (∀ si ∈ tShirtCreditSale.items,
      si.subtotal = si.quantity * si.pricePerUnit - si.discount.getD 0) ∧
    tShirtCreditSale.totalAmount = (tShirtCreditSale.items.map (fun i => i.subtotal)).sum :=
  createSale_subtotals_total demoProductsState { sales := [], creditPayments := [] }
    [{ productId := "1", quantity := 2, pricePerUnit := 100, discount := none }] 0 "1"
    none none "s1" (fun _ => "i") (fun _ => "a") tShirtCreditSale (by decide)

/-! ### Remaining concrete witnesses -/

/-- C2 witness: the single-step reachable state obtained by one (overpaid,
empty-item) createSale from the initial state satisfies the balance
equation for every sale it contains. -/
theorem balance_invariant_reachable_witness :
    salesInv (createSale demoProductsState { sales := [], creditPayments := [] } [] 5 "1"
      none none "s1" (fun _ => "i") (fun _ => "a")).2.1 :=
  balance_invariant_reachable
    (SalesReachable.createSaleStep demoProductsState [] 5 "1" none none "s1"
      (fun _ => "i") (fun _ => "a") SalesReachable.init)

/-- C5 witness: paying 50 against the concrete 200-balance credit sale
appends exactly the returned payment record to the credit payments list. -/
theorem addCreditPayment_success_effects_witness :
    (addCreditPayment { sales := [tShirtCreditSale], creditPayments := [] } "s1" 50 "1"
      "CASH" none "p1").2.creditPayments =
      [] ++ [{ id := "p1", saleId := "s1", amount := 50, paymentMethod := "CASH",
               receivedBy := "1", notes := none }] :=
  (addCreditPayment_success_effects { sales := [tShirtCreditSale], creditPayments := [] }
    "s1" 50 "1" "CASH" none "p1"
    { id := "p1", saleId := "s1", amount := 50, paymentMethod := "CASH",
      receivedBy := "1", notes := none } (by decide)).2.2.1

/-- C9 witness: the admin demo credentials with a succeeding storage write
authenticate the ADMIN demo user. -/
theorem login_correct_witness :
    (login true "admin" "admin123" none).2 = some adminUser ∧
    adminUser.role = UserRole.ADMIN :=
  (login_correct true "admin" "admin123" none).2.2.1 rfl rfl rfl

end MrManager
